import Mathlib

/-
Verification of the pinport client library (PinportClient).

The development shallowly embeds the client found in src/src/index.ts and
dist/index.js: JavaScript objects become association lists with the
object-literal update semantics, the fetch transport becomes an explicit
Response value handed to each operation, and asynchronous methods become
pure functions returning the outgoing Request together with the
interpreted result.  Stateful method calls are rendered in state-passing
style: every operation returns the (unchanged) client alongside its
result, mirroring the absence of any field assignment in the method
bodies.
-/

/-- JSON values, the shallow embedding of the JavaScript values the client
sends to and receives from the transport.  Numbers are modelled as
integers, which covers every value the verified properties mention. -/
inductive Json where
  | null : Json
  | bool : Bool → Json
  | num : Int → Json
  | str : String → Json
  | arr : List Json → Json
  | obj : List (String × Json) → Json

/-- Length of the top-level field list of a JSON object (0 otherwise);
used to separate concrete JSON objects with different field counts. -/
def Json.topLen : Json → Nat
  | .obj fields => fields.length
  | _ => 0

/-- Header bags and generic JavaScript objects are association lists kept
in insertion order, as JavaScript objects are. -/
abbrev HeaderList := List (String × String)

/-- JavaScript property definition inside an object literal: if the key is
already present its value is updated in place (the position of the first
occurrence is kept), otherwise the pair is appended. -/
def objInsert {α : Type} : List (String × α) → String → α → List (String × α)
  | [], k, v => [(k, v)]
  | p :: rest, k, v => if p.1 = k then (k, v) :: rest else p :: objInsert rest k v

/-- JavaScript object spread: the entries of the second object are written
over the first, one property definition at a time. -/
def objSpread {α : Type} (base extra : List (String × α)) : List (String × α) :=
  extra.foldl (fun acc q => objInsert acc q.1 q.2) base

/-- Property lookup on the association-list rendering of an object. -/
def lookupKey {α : Type} : List (String × α) → String → Option α
  | [], _ => none
  | p :: rest, k => if p.1 = k then some p.2 else lookupKey rest k

/-- All entries of an object whose key equals the given one, in order. -/
def filterKey {α : Type} : List (String × α) → String → List (String × α)
  | [], _ => []
  | p :: rest, k => if p.1 = k then p :: filterKey rest k else filterKey rest k

/-- First-defined-wins choice on optional values; `optOr later earlier`
models a later spread entry overriding an earlier one when present. -/
def optOr {α : Type} : Option α → Option α → Option α
  | some a, _ => some a
  | none, b => b

/-- JavaScript String.prototype.split with a single-character separator,
rendered character by character over the string's data so that concrete
instances reduce in the kernel. -/
def splitCharAux (sep : Char) : List Char → List (List Char)
  | [] => [[]]
  | c :: rest =>
    let r := splitCharAux sep rest
    if c = sep then [] :: r
    else match r with
      | [] => [[c]]
      | g :: gs => (c :: g) :: gs

/-- The segments of a string split on a single-character separator,
matching the JavaScript call key.split with that separator. -/
def jsSplit (s : String) (sep : Char) : List String :=
  (splitCharAux sep s.data).map (fun cs => String.mk cs)

/-- Escaping applied by JSON.stringify to a single character; quotes and
backslashes are escaped, other characters pass through (a simplification:
control characters are left as-is, no verified property inspects them). -/
def escapeJsonChar (ch : Char) : String :=
  if ch = '"' then "\\\"" else if ch = '\\' then "\\\\" else String.singleton ch

/-- Escaping applied by JSON.stringify to a string value or key. -/
def escapeJsonString (s : String) : String :=
  String.join (s.data.map escapeJsonChar)

mutual

/-- JSON.stringify on the embedded JSON values (numbers are integers). -/
def Json.stringify : Json → String
  | .null => "null"
  | .bool true => "true"
  | .bool false => "false"
  | .num n => toString n
  | .str s => "\"" ++ escapeJsonString s ++ "\""
  | .arr xs => "[" ++ stringifyItems xs ++ "]"
  | .obj fs => "\x7b" ++ stringifyFields fs ++ "\x7d"

/-- Comma-separated serialization of the items of a JSON array. -/
def stringifyItems : List Json → String
  | [] => ""
  | [x] => Json.stringify x
  | x :: y :: rest => Json.stringify x ++ "," ++ stringifyItems (y :: rest)

/-- Comma-separated serialization of the fields of a JSON object. -/
def stringifyFields : List (String × Json) → String
  | [] => ""
  | [(k, v)] => "\"" ++ escapeJsonString k ++ "\":" ++ Json.stringify v
  | (k, v) :: q :: rest =>
      "\"" ++ escapeJsonString k ++ "\":" ++ Json.stringify v ++ "," ++ stringifyFields (q :: rest)

end

/-- The HTTP method the transport applies when none is supplied. -/
def httpGet : String := "GET"

/-- The method createPins supplies. -/
def httpPost : String := "POST"

/-- The method updatePins supplies. -/
def httpPut : String := "PUT"

/-- The method deletePins supplies. -/
def httpDelete : String := "DELETE"

/-- Route suffix used by createPins, updatePins and deletePins. -/
def pinsRoute : String := "/pins"

/-- Route text getPins places between the base URL and the meta id, from
src/src/index.ts. -/
def pinsItemRoute : String := "/pins/"

/-- Route text getMetadata places between the base URL and the meta id. -/
def metadataRoute : String := "/metadata/"

/-- The Authorization header name the client always forces. -/
def authorizationKey : String := "Authorization"

/-- The Content-Type header name the client always forces. -/
def contentTypeKey : String := "Content-Type"

/-- The Content-Type value the client always forces. -/
def contentTypeValue : String := "application/json"

/-- The Authorization value derived from the configured key. -/
def bearerValue (key : String) : String := "Bearer " ++ key

/-- The status field name added to rejected responses. -/
def statusKey : String := "status"

/-- Field name used by the worked 404 example. -/
def errorKey : String := "error"

/-- Body text of the worked 404 example. -/
def notFoundMsg : String := "not found"

/-- Constructor error for a missing key. -/
def keyNeededMsg : String := "Pinport public or private key is needed"

/-- Constructor error for a key that is not shaped like a JWT. -/
def keyJwtMsg : String := "Pinport key must be a JWT."

/-- The request-options bag recognized by the wrapper: method, body and
headers, each possibly absent (an absent field models a key that is not
present on the JavaScript object, so a spread does not contribute it). -/
structure RequestInit where
  method : Option String
  body : Option String
  headers : HeaderList

/-- The options bag of a call that passed no init object. -/
def emptyInit : RequestInit := ⟨none, none, []⟩

/-- A transport response: numeric status code and parsed JSON body. -/
structure Response where
  status : Nat
  body : Json

/-- The outgoing request the wrapper hands to the transport, after merging
and after the transport's GET default is applied. -/
structure Request where
  url : String
  method : String
  body : Option String
  headers : HeaderList

/-- The header object built by PinportClient.fetch:
spread of the call-supplied headers, then the construction-time default
headers, then the two forced literal entries, exactly as in the object
literal of src/src/index.ts lines 75-80. -/
def mergedHeaders (callH dfltH : HeaderList) (key : String) : HeaderList :=
  objInsert (objInsert (objSpread callH dfltH) contentTypeKey contentTypeValue)
    authorizationKey (bearerValue key)

/-- The merged options of PinportClient.fetch: the call-supplied init is
spread first, the construction-time requestInit second (so its entries
win when present), and the headers key is then overwritten with the
merged header object. -/
def mergeInit (call dflt : RequestInit) (key : String) : RequestInit :=
  ⟨optOr dflt.method call.method, optOr dflt.body call.body,
    mergedHeaders call.headers dflt.headers key⟩

/-- The request sent over the transport for one wrapper call; the
transport defaults the method to GET when the merged options carry none. -/
def buildRequest (key : String) (dflt : RequestInit) (url : String) (call : RequestInit) : Request :=
  let init := mergeInit call dflt key
  ⟨url, init.method.getD httpGet, init.body, init.headers⟩

/-- Own enumerable properties contributed when a value is spread into an
object literal.  PinportClient.fetch spreads res where res is the Promise
returned by response.json, without awaiting it; a Promise has no own
enumerable properties, so the spread contributes nothing and the parsed
body is lost.  The eventual body is taken as argument to make the loss
explicit. -/
def promiseOwnFields (_pending : Json) : List (String × Json) := []

/-- The wrapper's interpretation of a transport response, from the body of
PinportClient.fetch in src/src/index.ts lines 83-85 (identical in
dist/index.js): when the status exceeds 399 the call rejects with the
object literal built from the spread of the unawaited json() promise plus
the status field; otherwise the returned promise flattens and the call
resolves with the parsed body. -/
def fetchResult (resp : Response) : Except Json Json :=
  if resp.status > 399 then
    Except.error (Json.obj (promiseOwnFields resp.body ++ [(statusKey, Json.num resp.status)]))
  else
    Except.ok resp.body

/-- The error payload the specification describes for a rejected call: the
parsed JSON body augmented with the numeric status field.  Written from
the specification's words, to be compared against fetchResult. -/
def specErrorPayload (body : Json) (status : Nat) : Json :=
  match body with
  | Json.obj fields => Json.obj (objInsert fields statusKey (Json.num status))
  | _ => Json.obj [(statusKey, Json.num status)]

/-- The authenticated-fetch capability handed to extensions: from an input
URL, an options bag and the transport's response it yields the outgoing
request and the interpreted result. -/
abbrev PinportFetch := String → RequestInit → Response → Request × Except Json Json

/-- An extension descriptor: a namespace key and a constructible taking
the client's bound authenticated fetch, as passed in src/src/index.ts
lines 61-63. -/
structure ExtDescriptor (A : Type) where
  key : String
  inst : PinportFetch → A

/-- The optional construction options: default requestInit overrides and
the ordered extension list. -/
structure ClientOptions (A : Type) where
  requestInit : RequestInit
  extensions : List (ExtDescriptor A)

/-- The client's long-lived state: configuration fixed at construction
plus the extension registry.  No field holds any Pin. -/
structure PinportClient (A : Type) where
  apiUrl : String
  key : String
  requestInit : RequestInit
  extensions : List (String × A)

/-- The bound authenticated fetch of a client with the given key and
default requestInit, as handed to extension constructors. -/
def clientFetch (key : String) (dflt : RequestInit) : PinportFetch :=
  fun input init resp => (buildRequest key dflt input init, fetchResult resp)

/-- PinportClient.initializeExtensions: walk the descriptor list in order,
instantiate each descriptor with the bound fetch, and store the result
under the descriptor's key in the registry object. -/
def initializeExtensions {A : Type} (f : PinportFetch) (exts : List (ExtDescriptor A)) :
    List (String × A) :=
  exts.foldl (fun reg e => objInsert reg e.key (e.inst f)) []

/-- The constructor of PinportClient (src/src/index.ts lines 43-56): an
empty key or a key that does not split on the dot into exactly three
segments raises a configuration error; otherwise the configuration is
stored and every extension is instantiated before the constructor
returns.  The whole check is local: no network value is consumed. -/
def PinportClient.create {A : Type} (apiUrl key : String) (opts : ClientOptions A) :
    Except String (PinportClient A) :=
  if key = "" then Except.error keyNeededMsg
  else if (jsSplit key '.').length ≠ 3 then Except.error keyJwtMsg
  else Except.ok ⟨apiUrl, key, opts.requestInit,
    initializeExtensions (clientFetch key opts.requestInit) opts.extensions⟩

/-- PinportClient.fetch in state-passing style: the client is returned
unchanged (the method body assigns no field), along with the outgoing
request and the interpreted result. -/
def PinportClient.fetchOp {A : Type} (c : PinportClient A) (input : String)
    (init : RequestInit) (resp : Response) :
    PinportClient A × Request × Except Json Json :=
  (c, buildRequest c.key c.requestInit input init, fetchResult resp)

/-- PinportClient.createPins: POST to apiUrl ++ /pins with the serialized
pin array as body. -/
def PinportClient.createPins {A : Type} (c : PinportClient A) (pins : List Json)
    (resp : Response) : PinportClient A × Request × Except Json Json :=
  c.fetchOp (c.apiUrl ++ pinsRoute) ⟨some httpPost, some (Json.stringify (Json.arr pins)), []⟩ resp

/-- PinportClient.updatePins (dist/index.js): PUT to apiUrl ++ /pins with
the serialized update array as body. -/
def PinportClient.updatePins {A : Type} (c : PinportClient A) (pins : List Json)
    (resp : Response) : PinportClient A × Request × Except Json Json :=
  c.fetchOp (c.apiUrl ++ pinsRoute) ⟨some httpPut, some (Json.stringify (Json.arr pins)), []⟩ resp

/-- PinportClient.deletePins (dist/index.js): DELETE to apiUrl ++ /pins
with the serialized id array as body. -/
def PinportClient.deletePins {A : Type} (c : PinportClient A) (ids : List String)
    (resp : Response) : PinportClient A × Request × Except Json Json :=
  c.fetchOp (c.apiUrl ++ pinsRoute)
    ⟨some httpDelete, some (Json.stringify (Json.arr (ids.map Json.str))), []⟩ resp

/-- PinportClient.getPins (src/src/index.ts lines 149-151): a wrapper call
with no options bag against apiUrl ++ /pins/ ++ meta_id, the meta id
interpolated as-is. -/
def PinportClient.getPins {A : Type} (c : PinportClient A) (meta_id : String)
    (resp : Response) : PinportClient A × Request × Except Json Json :=
  c.fetchOp (c.apiUrl ++ pinsItemRoute ++ meta_id) emptyInit resp

/-- Modelled from the spec: getMetadata is documented in the repository
README and in the specification's route table but is absent from every
provided source file; per the specification it issues a GET against
apiUrl ++ /metadata/ ++ meta_id with no body, through the same
authenticated wrapper as the other operations, and passes the response
body through opaquely. -/
def PinportClient.getMetadata {A : Type} (c : PinportClient A) (meta_id : String)
    (resp : Response) : PinportClient A × Request × Except Json Json :=
  c.fetchOp (c.apiUrl ++ metadataRoute ++ meta_id) emptyInit resp

/-- An object with no entry at a key filters to nothing at that key. -/
theorem filterKey_nil_of_forall {α : Type} (o : List (String × α)) (k : String)
    (h : ∀ p ∈ o, p.1 ≠ k) : filterKey o k = [] := by
  induction o with
  | nil => rfl
  | cons p rest ih =>
      simp only [filterKey]
      rw [if_neg (h p (by simp))]
      exact ih (fun q hq => h q (by simp [hq]))

/-- In an object whose keys are pairwise distinct, every key occurs at
most once. -/
theorem filterKey_le_one_of_nodup {α : Type} (o : List (String × α))
    (h : (o.map Prod.fst).Nodup) (k : String) : (filterKey o k).length ≤ 1 := by
  induction o with
  | nil => simp [filterKey]
  | cons p rest ih =>
      rw [List.map_cons, List.nodup_cons] at h
      simp only [filterKey]
      by_cases hp : p.1 = k
      · rw [if_pos hp]
        have hrest : filterKey rest k = [] := by
          apply filterKey_nil_of_forall
          intro q hq hqk
          apply h.1
          have hmem : q.1 ∈ rest.map Prod.fst := List.mem_map_of_mem Prod.fst hq
          rwa [hqk, ← hp] at hmem
        simp [hrest]
      · rw [if_neg hp]
        exact ih h.2

/-- Updating a key that occurs at most once leaves exactly the new entry
at that key. -/
theorem filterKey_objInsert_self {α : Type} (o : List (String × α)) (k : String) (v : α)
    (h : (filterKey o k).length ≤ 1) : filterKey (objInsert o k v) k = [(k, v)] := by
  induction o with
  | nil => simp [objInsert, filterKey]
  | cons p rest ih =>
      simp only [objInsert]
      by_cases hp : p.1 = k
      · rw [if_pos hp]
        simp only [filterKey, if_pos (rfl : (k, v).1 = k)]
        simp only [filterKey, if_pos hp] at h
        have hrest : filterKey rest k = [] := by
          cases hfk : filterKey rest k with
          | nil => rfl
          | cons a t => rw [hfk] at h; simp at h
        simp [hrest]
      · rw [if_neg hp]
        simp only [filterKey, if_neg hp]
        simp only [filterKey, if_neg hp] at h
        exact ih h

/-- Updating one key does not change the entries at any other key. -/
theorem filterKey_objInsert_ne {α : Type} (o : List (String × α)) (k k' : String) (v : α)
    (h : k' ≠ k) : filterKey (objInsert o k v) k' = filterKey o k' := by
  induction o with
  | nil =>
      simp only [objInsert, filterKey]
      rw [if_neg (fun hh : (k, v).1 = k' => h (Eq.symm hh))]
  | cons p rest ih =>
      simp only [objInsert]
      by_cases hp : p.1 = k
      · rw [if_pos hp]
        simp only [filterKey]
        rw [if_neg (fun hh : (k, v).1 = k' => h (Eq.symm hh)),
          if_neg (fun hh : p.1 = k' => h (by rw [← hh, hp]))]
      · rw [if_neg hp]
        simp only [filterKey]
        by_cases hpk : p.1 = k'
        · rw [if_pos hpk, if_pos hpk, ih]
        · rw [if_neg hpk, if_neg hpk, ih]

/-- A property update preserves at-most-one occurrence of every key. -/
theorem filterKey_objInsert_le_one {α : Type} (o : List (String × α))
    (h : ∀ k₀, (filterKey o k₀).length ≤ 1) (k : String) (v : α) (k' : String) :
    (filterKey (objInsert o k v) k').length ≤ 1 := by
  by_cases hk : k' = k
  · subst hk
    rw [filterKey_objInsert_self o k' v (h k')]
    simp
  · rw [filterKey_objInsert_ne o k k' v hk]
    exact h k'

/-- Spreading any object over a base with at-most-one occurrence per key
keeps at-most-one occurrence per key. -/
theorem filterKey_objSpread_le_one {α : Type} (extra base : List (String × α))
    (h : ∀ k, (filterKey base k).length ≤ 1) :
    ∀ k, (filterKey (objSpread base extra) k).length ≤ 1 := by
  induction extra generalizing base with
  | nil => exact h
  | cons q rest ih =>
      intro k
      have hstep : objSpread base (q :: rest) = objSpread (objInsert base q.1 q.2) rest := rfl
      rw [hstep]
      exact ih (objInsert base q.1 q.2)
        (fun k₀ => filterKey_objInsert_le_one base h q.1 q.2 k₀) k

/-- The merged header object carries exactly one Authorization entry,
holding the bearer value of the configured key. -/
theorem mergedHeaders_auth (callH dfltH : HeaderList) (key : String)
    (h : ∀ k, (filterKey callH k).length ≤ 1) :
    filterKey (mergedHeaders callH dfltH key) authorizationKey
      = [(authorizationKey, bearerValue key)] := by
  unfold mergedHeaders
  apply filterKey_objInsert_self
  rw [filterKey_objInsert_ne _ _ _ _ (by decide : authorizationKey ≠ contentTypeKey)]
  exact filterKey_objSpread_le_one dfltH callH h authorizationKey

/-- The merged header object carries exactly one Content-Type entry,
holding application/json. -/
theorem mergedHeaders_ct (callH dfltH : HeaderList) (key : String)
    (h : ∀ k, (filterKey callH k).length ≤ 1) :
    filterKey (mergedHeaders callH dfltH key) contentTypeKey
      = [(contentTypeKey, contentTypeValue)] := by
  unfold mergedHeaders
  rw [filterKey_objInsert_ne _ _ _ _ (by decide : contentTypeKey ≠ authorizationKey)]
  apply filterKey_objInsert_self
  exact filterKey_objSpread_le_one dfltH callH h contentTypeKey

/-- Looking up the key just written yields the written value. -/
theorem lookupKey_objInsert_self {α : Type} (o : List (String × α)) (k : String) (v : α) :
    lookupKey (objInsert o k v) k = some v := by
  induction o with
  | nil => simp [objInsert, lookupKey]
  | cons p rest ih =>
      simp only [objInsert]
      by_cases hp : p.1 = k
      · rw [if_pos hp]
        simp [lookupKey]
      · rw [if_neg hp]
        simp only [lookupKey, if_neg hp]
        exact ih

/-- Writing one key does not change the lookup of any other key. -/
theorem lookupKey_objInsert_ne {α : Type} (o : List (String × α)) (k k' : String) (v : α)
    (h : k' ≠ k) : lookupKey (objInsert o k v) k' = lookupKey o k' := by
  induction o with
  | nil =>
      simp only [objInsert, lookupKey]
      rw [if_neg (fun hh : (k, v).1 = k' => h (Eq.symm hh))]
  | cons p rest ih =>
      simp only [objInsert]
      by_cases hp : p.1 = k
      · rw [if_pos hp]
        simp only [lookupKey]
        rw [if_neg (fun hh : (k, v).1 = k' => h (Eq.symm hh)),
          if_neg (fun hh : p.1 = k' => h (by rw [← hh, hp]))]
      · rw [if_neg hp]
        simp only [lookupKey]
        by_cases hpk : p.1 = k'
        · rw [if_pos hpk, if_pos hpk]
        · rw [if_neg hpk, if_neg hpk, ih]

/-- Registry lookup after folding the descriptor list: the last descriptor
carrying the key wins, and when none carries it the starting registry
answers. -/
theorem lookupKey_initFold {A : Type} (f : PinportFetch) (exts : List (ExtDescriptor A))
    (reg : List (String × A)) (k : String) :
    lookupKey (exts.foldl (fun r e => objInsert r e.key (e.inst f)) reg) k
      = optOr (((exts.filter (fun e => e.key = k)).getLast?).map (fun e => e.inst f))
          (lookupKey reg k) := by
  induction exts generalizing reg with
  | nil => simp [optOr]
  | cons e rest ih =>
      rw [List.foldl_cons, ih]
      by_cases he : e.key = k
      · rw [List.filter_cons_of_pos (by simpa using he), he, lookupKey_objInsert_self]
        cases hft : rest.filter (fun e => e.key = k) with
        | nil => simp [hft, optOr]
        | cons a t =>
            cases h2 : (a :: t).getLast? with
            | none => simp at h2
            | some b => simp [hft, h2, optOr]
      · rw [List.filter_cons_of_neg (by simpa using he),
          lookupKey_objInsert_ne _ _ _ _ (fun hh => he (Eq.symm hh))]

/-- A concrete validly-configured client with no options, used by witness
statements. -/
def plainClient : PinportClient Unit := ⟨"https://api", "a.b.c", emptyInit, []⟩

/-- A concrete successful response, used by witness statements. -/
def okResp : Response := ⟨200, Json.null⟩

/-- Claim C1: the specification says a rejected call's error equals the
parsed JSON body augmented with the status field.  Evaluated at the
specification's own example — a 404 response whose body has the single
field error = not found — the wrapper instead rejects with an object
holding only the status field, because response.json() is spread without
being awaited and a pending promise contributes no properties; the
reject condition (status above 399) and the resolve path behave as
stated. -/
theorem pinportFetch_error_drops_parsed_body :
    fetchResult ⟨404, Json.obj [(errorKey, Json.str notFoundMsg)]⟩
        = Except.error (Json.obj [(statusKey, Json.num 404)])
      ∧ fetchResult ⟨200, Json.obj [(errorKey, Json.str notFoundMsg)]⟩
        = Except.ok (Json.obj [(errorKey, Json.str notFoundMsg)])
      ∧ Json.obj [(statusKey, Json.num 404)]
        ≠ specErrorPayload (Json.obj [(errorKey, Json.str notFoundMsg)]) 404 := by
  refine ⟨rfl, rfl, ?_⟩
  have hspec : specErrorPayload (Json.obj [(errorKey, Json.str notFoundMsg)]) 404
      = Json.obj [(errorKey, Json.str notFoundMsg), (statusKey, Json.num 404)] := rfl
  rw [hspec]
  intro h
  have h2 := congrArg Json.topLen h
  simp [Json.topLen] at h2

/-- Claim C2: getMetadata issues a GET against apiUrl ++ /metadata/ ++
meta_id with no request body and resolves with the response body passed
through opaquely; stated for a client whose default requestInit supplies
no method and no body, since the wrapper lets construction-time defaults
override per-call options. -/
theorem getMetadata_issues_get_and_passes_body {A : Type} (c : PinportClient A)
    (meta_id : String) (resp : Response)
    (hm : c.requestInit.method = none) (hb : c.requestInit.body = none)
    (hs : resp.status ≤ 399) :
    ((c.getMetadata meta_id resp).2.1).url = c.apiUrl ++ metadataRoute ++ meta_id
      ∧ ((c.getMetadata meta_id resp).2.1).method = httpGet
      ∧ ((c.getMetadata meta_id resp).2.1).body = none
      ∧ (c.getMetadata meta_id resp).2.2 = Except.ok resp.body := by
  refine ⟨rfl, ?_, ?_, ?_⟩
  · simp [PinportClient.getMetadata, PinportClient.fetchOp, buildRequest, mergeInit,
      emptyInit, hm, optOr]
  · simp [PinportClient.getMetadata, PinportClient.fetchOp, buildRequest, mergeInit,
      emptyInit, hb, optOr]
  · show fetchResult resp = Except.ok resp.body
    unfold fetchResult
    rw [if_neg (by omega)]

/-- Claim C2 witness: the theorem applied to a concrete client, meta id
and 200 response. -/
theorem getMetadata_issues_get_and_passes_body_witness :
    (plainClient.requestInit.method = none ∧ plainClient.requestInit.body = none
        ∧ okResp.status ≤ 399)
      ∧ (((plainClient.getMetadata ("m1") okResp).2.1).url
            = plainClient.apiUrl ++ metadataRoute ++ "m1"
          ∧ ((plainClient.getMetadata ("m1") okResp).2.1).method = httpGet
          ∧ ((plainClient.getMetadata ("m1") okResp).2.1).body = none
          ∧ (plainClient.getMetadata ("m1") okResp).2.2 = Except.ok okResp.body) :=
  ⟨⟨rfl, rfl, by decide⟩,
    getMetadata_issues_get_and_passes_body plainClient ("m1") okResp rfl rfl (by decide)⟩

/-- Claim C3: construction succeeds exactly when the key is non-empty and
splits on the dot into three segments; otherwise it fails synchronously
with a configuration error (the check is a pure computation on the key,
consuming no network value). -/
theorem create_ok_iff_key_shape {A : Type} (apiUrl key : String) (opts : ClientOptions A) :
    (∃ c, PinportClient.create apiUrl key opts = Except.ok c)
      ↔ (key ≠ "" ∧ (jsSplit key '.').length = 3) := by
  unfold PinportClient.create
  by_cases h1 : key = ""
  · subst h1
    simp
  · rw [if_neg h1]
    by_cases h2 : (jsSplit key '.').length = 3
    · rw [if_neg (fun hh => hh h2)]
      simp [h1, h2]
    · rw [if_pos h2]
      simp [h1, h2]

/-- Claim C3 witness: the theorem instantiated at a three-segment key. -/
theorem create_ok_iff_key_shape_witness :
    (("a.b.c" : String) ≠ "" ∧ (jsSplit ("a.b.c") '.').length = 3)
      ∧ (∃ c, PinportClient.create ("https://api") ("a.b.c")
          (⟨emptyInit, []⟩ : ClientOptions Unit) = Except.ok c) :=
  ⟨⟨by decide, by decide⟩,
    (create_ok_iff_key_shape ("https://api") ("a.b.c") ⟨emptyInit, []⟩).mpr
      ⟨by decide, by decide⟩⟩

/-- Claim C4: every outgoing request carries exactly one Authorization
entry, equal to Bearer followed by the key, and exactly one Content-Type
entry, equal to application/json, whatever conflicting values the
per-call options or the construction-time defaults supply; the per-call
header object, being a JavaScript object, has pairwise-distinct keys. -/
theorem request_forces_auth_and_content_headers {A : Type} (c : PinportClient A)
    (url : String) (call : RequestInit) (resp : Response)
    (h : (call.headers.map Prod.fst).Nodup) :
    filterKey ((c.fetchOp url call resp).2.1).headers authorizationKey
        = [(authorizationKey, bearerValue c.key)]
      ∧ filterKey ((c.fetchOp url call resp).2.1).headers contentTypeKey
        = [(contentTypeKey, contentTypeValue)] := by
  have hle := filterKey_le_one_of_nodup call.headers h
  exact ⟨mergedHeaders_auth call.headers c.requestInit.headers c.key hle,
    mergedHeaders_ct call.headers c.requestInit.headers c.key hle⟩

/-- Per-call options carrying conflicting values for both forced header
names, used by the claim C4 witness. -/
def conflictCallInit : RequestInit :=
  ⟨none, none, [(authorizationKey, "call-auth"), (contentTypeKey, "text/plain")]⟩

/-- A client whose construction-time defaults also carry conflicting
values for both forced header names, used by the claim C4 witness. -/
def conflictClient : PinportClient Unit :=
  ⟨"https://api", "a.b.c",
    ⟨none, none, [(authorizationKey, "default-auth"), (contentTypeKey, "text/html")]⟩, []⟩

/-- Claim C4 witness: both forced headers survive conflicting per-call and
default values. -/
theorem request_forces_auth_and_content_headers_witness :
    ((conflictCallInit.headers.map Prod.fst).Nodup)
      ∧ (filterKey ((conflictClient.fetchOp ("https://api/pins") conflictCallInit okResp).2.1).headers
            authorizationKey = [(authorizationKey, bearerValue conflictClient.key)]
          ∧ filterKey ((conflictClient.fetchOp ("https://api/pins") conflictCallInit okResp).2.1).headers
            contentTypeKey = [(contentTypeKey, contentTypeValue)]) :=
  ⟨by decide,
    request_forces_auth_and_content_headers conflictClient ("https://api/pins")
      conflictCallInit okResp (by decide)⟩

/-- Claim C5: options merge in increasing precedence — per-call options
first, then the construction-time requestInit, then the two forced
headers; in particular a method or body present in both bags is sent
with the construction-time value. -/
theorem default_requestInit_overrides_call_options {A : Type} (c : PinportClient A)
    (url : String) (call : RequestInit) (resp : Response) (m₁ m₂ b₁ b₂ : String)
    (_hm1 : call.method = some m₁) (hm2 : c.requestInit.method = some m₂)
    (_hb1 : call.body = some b₁) (hb2 : c.requestInit.body = some b₂)
    (hnd : (call.headers.map Prod.fst).Nodup) :
    ((c.fetchOp url call resp).2.1).method = m₂
      ∧ ((c.fetchOp url call resp).2.1).body = some b₂
      ∧ filterKey ((c.fetchOp url call resp).2.1).headers contentTypeKey
          = [(contentTypeKey, contentTypeValue)]
      ∧ filterKey ((c.fetchOp url call resp).2.1).headers authorizationKey
          = [(authorizationKey, bearerValue c.key)] := by
  have hle := filterKey_le_one_of_nodup call.headers hnd
  refine ⟨?_, ?_, mergedHeaders_ct call.headers c.requestInit.headers c.key hle,
    mergedHeaders_auth call.headers c.requestInit.headers c.key hle⟩
  · simp [PinportClient.fetchOp, buildRequest, mergeInit, hm2, optOr]
  · simp [PinportClient.fetchOp, buildRequest, mergeInit, hb2, optOr]

/-- Per-call options whose method and body conflict with the defaults,
used by the claim C5 witness. -/
def c5CallInit : RequestInit := ⟨some httpPost, some ("[1]"), []⟩

/-- A client whose construction-time defaults carry a method and a body,
used by the claim C5 witness. -/
def c5Client : PinportClient Unit :=
  ⟨"https://api", "a.b.c", ⟨some httpPut, some ("[]"), []⟩, []⟩

/-- Claim C5 witness: with POST and a body in the call and PUT and another
body in the defaults, the defaults win. -/
theorem default_requestInit_overrides_call_options_witness :
    (c5CallInit.method = some httpPost ∧ c5Client.requestInit.method = some httpPut
        ∧ c5CallInit.body = some ("[1]") ∧ c5Client.requestInit.body = some ("[]")
        ∧ (c5CallInit.headers.map Prod.fst).Nodup)
      ∧ (((c5Client.fetchOp ("https://api/pins") c5CallInit okResp).2.1).method = httpPut
          ∧ ((c5Client.fetchOp ("https://api/pins") c5CallInit okResp).2.1).body = some ("[]")
          ∧ filterKey ((c5Client.fetchOp ("https://api/pins") c5CallInit okResp).2.1).headers
              contentTypeKey = [(contentTypeKey, contentTypeValue)]
          ∧ filterKey ((c5Client.fetchOp ("https://api/pins") c5CallInit okResp).2.1).headers
              authorizationKey = [(authorizationKey, bearerValue c5Client.key)]) :=
  ⟨⟨rfl, rfl, rfl, rfl, by decide⟩,
    default_requestInit_overrides_call_options c5Client ("https://api/pins") c5CallInit okResp
      httpPost httpPut ("[1]") ("[]") rfl rfl rfl rfl (by decide)⟩

/-- Claim C6: the constructor instantiates every descriptor with the
client's bound fetch and stores each result in the registry under the
descriptor's key, walking the list in order, so a registry lookup
answers with the last matching descriptor's instance — in particular a
later duplicate key silently overwrites an earlier one. -/
theorem extensions_registry_lookup {A : Type} (f : PinportFetch)
    (exts : List (ExtDescriptor A)) (k : String) :
    lookupKey (initializeExtensions f exts) k
      = ((exts.filter (fun e => e.key = k)).getLast?).map (fun e => e.inst f) := by
  rw [initializeExtensions, lookupKey_initFold]
  cases hX : ((exts.filter (fun e => e.key = k)).getLast?).map (fun e => e.inst f) with
  | none => rfl
  | some a => rfl

/-- Claim C7: getPins issues a GET with no request body against a URL
carrying the literal meta id; stated for a client whose default
requestInit supplies no method and no body, since construction-time
defaults override per-call options.  The URL is apiUrl ++ /pins/ ++
meta_id, the earlier of the two route variants the claim admits. -/
theorem getPins_issues_get_without_body {A : Type} (c : PinportClient A)
    (meta_id : String) (resp : Response)
    (hm : c.requestInit.method = none) (hb : c.requestInit.body = none) :
    ((c.getPins meta_id resp).2.1).method = httpGet
      ∧ ((c.getPins meta_id resp).2.1).body = none
      ∧ ∃ pre, ((c.getPins meta_id resp).2.1).url = pre ++ meta_id := by
  refine ⟨?_, ?_, ⟨c.apiUrl ++ pinsItemRoute, rfl⟩⟩
  · simp [PinportClient.getPins, PinportClient.fetchOp, buildRequest, mergeInit,
      emptyInit, hm, optOr]
  · simp [PinportClient.getPins, PinportClient.fetchOp, buildRequest, mergeInit,
      emptyInit, hb, optOr]

/-- Claim C7 witness: the theorem applied to the plain client and the
specification's example meta id. -/
theorem getPins_issues_get_without_body_witness :
    (plainClient.requestInit.method = none ∧ plainClient.requestInit.body = none)
      ∧ (((plainClient.getPins ("meta1") okResp).2.1).method = httpGet
          ∧ ((plainClient.getPins ("meta1") okResp).2.1).body = none
          ∧ ∃ pre, ((plainClient.getPins ("meta1") okResp).2.1).url = pre ++ "meta1") :=
  ⟨⟨rfl, rfl⟩, getPins_issues_get_without_body plainClient ("meta1") okResp rfl rfl⟩

/-- Claim C8: every public operation returns the client unchanged — the
same apiUrl, key, requestInit and extension registry as at
construction — whatever the transport answers; the state type holds no
Pin, so nothing about any Pin is kept between calls. -/
theorem operations_preserve_client_state {A : Type} (c : PinportClient A)
    (pins upd : List Json) (ids : List String) (meta_id : String)
    (r₁ r₂ r₃ r₄ : Response) :
    (c.createPins pins r₁).1 = c ∧ (c.getPins meta_id r₂).1 = c
      ∧ (c.updatePins upd r₃).1 = c ∧ (c.deletePins ids r₄).1 = c :=
  ⟨rfl, rfl, rfl, rfl⟩

/-- Claim C9: the constructor never validates apiUrl — any string,
including the empty one or one ending in a slash, is accepted whenever
the key passes the segment check — and operations splice the stored
apiUrl verbatim into the request URL. -/
theorem create_ignores_apiUrl {A : Type} (apiUrl key : String) (opts : ClientOptions A)
    (meta_id : String) (resp : Response) (h : (jsSplit key '.').length = 3) :
    ∃ c, PinportClient.create apiUrl key opts = Except.ok c
      ∧ c.apiUrl = apiUrl
      ∧ ((c.getPins meta_id resp).2.1).url = apiUrl ++ pinsItemRoute ++ meta_id := by
  have hne : key ≠ "" := by
    intro he
    rw [he] at h
    exact absurd h (by decide)
  refine ⟨⟨apiUrl, key, opts.requestInit,
    initializeExtensions (clientFetch key opts.requestInit) opts.extensions⟩, ?_, rfl, rfl⟩
  unfold PinportClient.create
  rw [if_neg hne, if_neg (fun hh => hh h)]

/-- Claim C9 witness: construction with the empty apiUrl succeeds and a
meta id full of URL-significant characters is spliced verbatim. -/
theorem create_ignores_apiUrl_witness :
    ((jsSplit ("a.b.c") '.').length = 3)
      ∧ (∃ c, PinportClient.create ("") ("a.b.c")
            (⟨emptyInit, []⟩ : ClientOptions Unit) = Except.ok c
          ∧ c.apiUrl = ""
          ∧ ((c.getPins ("a&b#c/d") okResp).2.1).url = "" ++ pinsItemRoute ++ "a&b#c/d") :=
  ⟨by decide,
    create_ignores_apiUrl ("") ("a.b.c") ⟨emptyInit, []⟩ ("a&b#c/d") okResp (by decide)⟩

/-- Claim C10: the getPins request URL is the character-for-character
concatenation of the stored apiUrl, the fixed route text /pins/ and the
meta id, with no URL encoding applied to any part. -/
theorem getPins_url_is_verbatim_concat {A : Type} (c : PinportClient A)
    (meta_id : String) (resp : Response) :
    ((c.getPins meta_id resp).2.1).url = c.apiUrl ++ pinsItemRoute ++ meta_id := rfl
